import Mathlib

/-!
Verification of the kaamiki activity-tracking daemon.

This file is a shallow embedding of the parts of the repository that the
session-tracking and record-writing behaviour depends on:

* `src/kaamiki/utils/common.py` — `CSVDataWriter` (rotating, header-once CSV
  sink), `seconds_to_datetime`;
* `src/kaamiki/protocols.py` — `BabyMonitorProtocol.activate` (the polling
  state machine that turns foreground-window samples into Session records)
  and `BabyMonitorProtocol._get_active_url_on_nt` (the URL probe).

Modelling conventions:

* Instants are nonnegative integers (seconds).  The daemon truncates
  `datetime.now()` to whole seconds and only ever subtracts a later instant
  from an earlier one (the wall clock is assumed monotone over a run), so
  natural-number subtraction is exact on the runs considered here.
  The textual rendering of an instant is abstracted to its decimal rendering;
  like the real `str(datetime)` format it contains no delimiter character.
* Python string truthiness (`if window and program:`) is modelled on
  `Option String`: `none` and `some ""` are falsy.
* The filesystem seen by `CSVDataWriter` is a total map from file numbers to
  file contents, a file content being its list of lines (the writer only ever
  appends whole `"\n"`-terminated lines, so this representation is lossless).
  `os.path.getsize` is the summed length of the lines plus one newline each.
* `str.join`, `str.split` and decimal rendering of numbers are given explicit
  executable definitions equivalent to the Python builtins.
-/

namespace Kaamiki

/-! ### Decimal rendering of natural numbers (Python `str(n)` / `f"{n:02d}"`) -/

/-- The character for a decimal digit `d < 10` (defensively `'9'` above). -/
def dchar : Nat → Char
  | 0 => '0' | 1 => '1' | 2 => '2' | 3 => '3' | 4 => '4'
  | 5 => '5' | 6 => '6' | 7 => '7' | 8 => '8' | _ => '9'

/-- Fuel-driven digit expansion (structural recursion so that concrete
values reduce inside the kernel); `fuel ≥ n` always suffices. -/
def natDigitsAux : Nat → Nat → List Char
  | 0, n => [dchar n]
  | fuel + 1, n =>
    if n < 10 then [dchar n]
    else natDigitsAux fuel (n / 10) ++ [dchar (n % 10)]

/-- The decimal digits of `n`, most significant first. -/
def natDigits (n : Nat) : List Char :=
  natDigitsAux n n

lemma natDigitsAux_stable : ∀ f1 f2 n, n ≤ f1 → n ≤ f2 →
    natDigitsAux f1 n = natDigitsAux f2 n := by
  intro f1
  induction f1 with
  | zero =>
    intro f2 n h1 _
    interval_cases n
    cases f2 <;> simp [natDigitsAux]
  | succ a ih =>
    intro f2 n h1 h2
    by_cases hn : n < 10
    · cases f2 <;> · interval_cases n <;> simp [natDigitsAux]
    · obtain ⟨b, rfl⟩ : ∃ b, f2 = b + 1 := ⟨f2 - 1, by omega⟩
      show (if n < 10 then _ else _) = (if n < 10 then _ else _)
      rw [if_neg hn, if_neg hn, ih b (n / 10) (by omega) (by omega)]

lemma natDigits_eq (n : Nat) :
    natDigits n = if n < 10 then [dchar n]
      else natDigits (n / 10) ++ [dchar (n % 10)] := by
  unfold natDigits
  by_cases hn : n < 10
  · rw [if_pos hn]
    cases n <;> simp [natDigitsAux, hn]
  · rw [if_neg hn]
    match n, hn with
    | m + 1, hn =>
      show (if m + 1 < 10 then _ else _) = _
      rw [if_neg hn]
      congr 1
      exact natDigitsAux_stable m ((m + 1) / 10) ((m + 1) / 10)
        (by omega) (le_refl _)

/-- Python `str(n)` for a nonnegative integer. -/
def natRepr (n : Nat) : String :=
  String.mk (natDigits n)

/-- Python `f"{n:02d}"`: zero-pad to width 2. -/
def pad2 (n : Nat) : String :=
  if n < 10 then "0" ++ natRepr n else natRepr n

/-- Python `f"{n:>03}"`: right-align, zero-fill to width 3. -/
def pad3 (n : Nat) : String :=
  if n < 10 then "00" ++ natRepr n
  else if n < 100 then "0" ++ natRepr n
  else natRepr n

lemma dchar_digit (d : Nat) : 48 ≤ (dchar d).toNat ∧ (dchar d).toNat ≤ 57 := by
  unfold dchar
  split <;> decide

lemma natDigits_ne_nil (n : Nat) : natDigits n ≠ [] := by
  rw [natDigits_eq]
  split <;> simp

lemma natDigits_digit (n : Nat) : ∀ c ∈ natDigits n, 48 ≤ c.toNat ∧ c.toNat ≤ 57 := by
  induction n using Nat.strong_induction_on with
  | _ n ih =>
    rw [natDigits_eq]
    split
    · intro c hc
      simp only [List.mem_singleton] at hc
      exact hc ▸ dchar_digit n
    · intro c hc
      rcases List.mem_append.1 hc with h | h
      · exact ih (n / 10) (Nat.div_lt_self (by omega) (by omega)) c h
      · simp only [List.mem_singleton] at h
        exact h ▸ dchar_digit (n % 10)

lemma natRepr_no_comma : ∀ c ∈ (natRepr n).data, c ≠ ',' := by
  intro c hc
  have := natDigits_digit n c hc
  intro h
  rw [h] at this
  exact absurd this (by decide)

lemma natRepr_no_colon : ∀ c ∈ (natRepr n).data, c ≠ ':' := by
  intro c hc
  have := natDigits_digit n c hc
  intro h
  rw [h] at this
  exact absurd this (by decide)

lemma pad2_data (n : Nat) :
    (pad2 n).data = (if n < 10 then ['0'] else []) ++ natDigits n := by
  unfold pad2 natRepr
  split <;> simp [String.data_append]

lemma pad2_digit (n : Nat) : ∀ c ∈ (pad2 n).data, 48 ≤ c.toNat ∧ c.toNat ≤ 57 := by
  intro c hc
  rw [pad2_data] at hc
  rcases List.mem_append.1 hc with h | h
  · split at h
    · simp only [List.mem_singleton] at h
      exact h ▸ (by decide)
    · exact absurd h (List.not_mem_nil c)
  · exact natDigits_digit n c h

lemma pad2_ne_nil (n : Nat) : (pad2 n).data ≠ [] := by
  rw [pad2_data]
  intro h
  exact natDigits_ne_nil n (List.append_eq_nil.1 h).2

/-! ### Joining and splitting delimited lines (Python `str.join` / `str.split`) -/

/-- Python `sep.join(parts)`. -/
def joinWith (sep : String) : List String → String
  | [] => ""
  | [x] => x
  | x :: xs => x ++ sep ++ joinWith sep xs

/-- The `sep.join` operation at the level of character lists. -/
def charJoin (sep : Char) : List (List Char) → List Char
  | [] => []
  | [x] => x
  | x :: xs => x ++ sep :: charJoin sep xs

/-- Python `s.split(sep)` for a one-character separator, on character lists.
`splitOnChar c [] = [[]]`, matching `"".split(sep) == ['']`. -/
def splitOnChar (c : Char) : List Char → List (List Char)
  | [] => [[]]
  | x :: xs =>
    if x = c then [] :: splitOnChar c xs
    else
      match splitOnChar c xs with
      | [] => [[x]]
      | y :: ys => (x :: y) :: ys

lemma joinWith_data (sep : String) (c : Char) (h : sep.data = [c]) :
    ∀ xs : List String, (joinWith sep xs).data = charJoin c (xs.map String.data)
  | [] => rfl
  | [x] => rfl
  | x :: y :: ys => by
    show (x ++ sep ++ joinWith sep (y :: ys)).data = _
    rw [String.data_append, String.data_append, h, joinWith_data sep c h (y :: ys)]
    simp [charJoin]

lemma splitOnChar_no_sep (c : Char) :
    ∀ l : List Char, c ∉ l → splitOnChar c l = [l]
  | [], _ => rfl
  | x :: xs, h => by
    have hx : ¬ x = c := fun hxc => h (hxc ▸ List.mem_cons_self x xs)
    have hxs : c ∉ xs := fun hm => h (List.mem_cons_of_mem x hm)
    rw [splitOnChar, if_neg hx, splitOnChar_no_sep c xs hxs]

lemma splitOnChar_append (c : Char) :
    ∀ l rest : List Char, c ∉ l →
      splitOnChar c (l ++ c :: rest) = l :: splitOnChar c rest
  | [], rest, _ => by
    rw [List.nil_append, splitOnChar, if_pos rfl]
  | x :: xs, rest, h => by
    have hx : ¬ x = c := fun hxc => h (hxc ▸ List.mem_cons_self x xs)
    have hxs : c ∉ xs := fun hm => h (List.mem_cons_of_mem x hm)
    rw [List.cons_append, splitOnChar, if_neg hx,
      splitOnChar_append c xs rest hxs]

lemma splitOnChar_charJoin (c : Char) :
    ∀ ls : List (List Char), ls ≠ [] → (∀ l ∈ ls, c ∉ l) →
      splitOnChar c (charJoin c ls) = ls
  | [], h, _ => absurd rfl h
  | [x], _, hm => splitOnChar_no_sep c x (hm x (List.mem_singleton_self x))
  | x :: y :: ys, _, hm => by
    show splitOnChar c (x ++ c :: charJoin c (y :: ys)) = _
    rw [splitOnChar_append c x _ (hm x (List.mem_cons_self x _)),
      splitOnChar_charJoin c (y :: ys) (by simp)
        (fun l hl => hm l (List.mem_cons_of_mem x hl))]

/-- Python `s.split(sep)` for a one-character separator, as a `String` map. -/
def splitStr (c : Char) (s : String) : List String :=
  (splitOnChar c s.data).map String.mk

/-- Round trip: splitting a joined line recovers the fields, provided no field
contains the separator. -/
lemma splitStr_joinWith (sep : String) (c : Char) (hsep : sep.data = [c])
    (xs : List String) (hne : xs ≠ []) (hm : ∀ x ∈ xs, c ∉ x.data) :
    splitStr c (joinWith sep xs) = xs := by
  unfold splitStr
  rw [joinWith_data sep c hsep, splitOnChar_charJoin c (xs.map String.data)
    (by simpa using hne) (by simpa using hm), List.map_map]
  exact List.map_id'' (fun x => rfl) xs

/-! ### `seconds_to_datetime` (`src/kaamiki/utils/common.py`, lines 135-140)

```python
def seconds_to_datetime(seconds):
    minutes, seconds = divmod(int(seconds), 60)
    hours, minutes = divmod(minutes, 60)
    days, hours = divmod(hours, 24)
    return f"{days:02d}:{hours:02d}:{minutes:02d}:{seconds:02d}"
```
The argument is a nonnegative integral-valued float (a difference of two
whole-second timestamps), so `int(seconds)` is modelled by a `Nat`. -/

def seconds_to_datetime (seconds : Nat) : String :=
  joinWith ":" [pad2 (seconds / 60 / 60 / 24), pad2 (seconds / 60 / 60 % 24),
    pad2 (seconds / 60 % 60), pad2 (seconds % 60)]

/-! ### `CSVDataWriter` (`src/kaamiki/utils/common.py`, lines 31-98)

The writer state is the open-file counter together with the filesystem it
writes into: `fs n` is the list of lines of file number `n` (the file named
`f"{base}-{n:>03}.csv"`).  Opening a file in mode `"a"` leaves its content
untouched, so neither construction nor rotation changes `fs`. -/

structure CSVW where
  count : Nat
  fs : Nat → List String

/-- The size `os.path.getsize` reports for a file stored as its lines: each
line was written with a trailing `"\n"`. -/
def fsize (lines : List String) : Nat :=
  (lines.map (fun l => l.length + 1)).sum

/-- Python serialization of one field: empty for `None`, identity for a
string value. -/
def serializeField : Option String → String
  | none => ""
  | some s => s

/-- The line appended for one record: `self._delimiter.join(args)` with the
default delimiter `","`. -/
def recLine (args : List (Option String)) : String :=
  joinWith "," (args.map serializeField)

/-- Append one line to the currently open file. -/
def appendLine (w : CSVW) (line : String) : CSVW :=
  { w with fs := fun m => if m = w.count then w.fs w.count ++ [line] else w.fs m }

/-- The rotation step (`CSVDataWriter._rotate`): if the current file's size strictly exceeds the
threshold, close it and open file `count + 1` (mode `"a"`, content kept). -/
def rotateStep (sz : Nat) (w : CSVW) : CSVW :=
  if sz < fsize (w.fs w.count) then { w with count := w.count + 1 } else w

/-- The append operation (`CSVDataWriter.write`): write the header row iff the open file is empty,
then the record line, flush, then `_rotate`.  The returned flag records
whether the header row was written during this append. -/
def writeCore (sz : Nat) (headers : List String) (args : List (Option String))
    (w : CSVW) : CSVW × Bool :=
  let wroteHeader := fsize (w.fs w.count) = 0
  let w1 := if fsize (w.fs w.count) = 0 then appendLine w (joinWith "," headers) else w
  let w2 := appendLine w1 (recLine args)
  (rotateStep sz w2, wroteHeader)

def write (sz : Nat) (headers : List String) (args : List (Option String))
    (w : CSVW) : CSVW :=
  (writeCore sz headers args w).1

/-- A sequence of appends. -/
def runWrites (sz : Nat) (headers : List String) (w : CSVW)
    (records : List (List (Option String))) : CSVW :=
  records.foldl (fun w args => write sz headers args w) w

/-- The default `size` argument of `CSVDataWriter.__init__`. -/
def defaultSize : Nat := 100000

/-! #### Construction scan (`CSVDataWriter.__init__`, lines 43-66)

```python
self._files = sorted(glob(f"{self._path[:-4]}*.csv"), reverse=True)
if self._files:
    self._count = int(os.path.basename(self._files[0][-7:-4]))
else:
    self._count = 1
self._open()
self._rotate()
```
`sorted(...)[0]` of the reversed sort is the lexicographically greatest
filename; `[-7:-4]` are the three characters before `".csv"`. -/

/-- The rotated filename, `f"{base}-{count:>03}.csv"`
(`CSVDataWriter._filename`). -/
def fileName (base : String) (n : Nat) : String :=
  base ++ "-" ++ pad3 n ++ ".csv"

/-- Python string `<`: lexicographic comparison by code point. -/
def lexLt : List Char → List Char → Bool
  | [], [] => false
  | [], _ :: _ => true
  | _ :: _, [] => false
  | x :: xs, y :: ys =>
    if x = y then lexLt xs ys else decide (x.toNat < y.toNat)

/-- The head of `sorted(names, reverse=True)`: the lexicographically greatest name. -/
def lexMax : List String → Option String
  | [] => none
  | x :: xs => some (xs.foldl (fun a b => if lexLt a.data b.data then b else a) x)

/-- Parsing `int(name[-7:-4])` for a name whose three characters before `".csv"` are
decimal digits. -/
def parse3 (s : String) : Nat :=
  (((s.data.drop (s.data.length - 7)).take 3).foldl
    (fun a c => a * 10 + (c.toNat - 48)) 0)

/-- The sequence counter chosen at construction, given the numbers of the
numbered record files already present in the directory. -/
def initCount (base : String) (existing : List Nat) : Nat :=
  match lexMax (existing.map (fileName base)) with
  | none => 1
  | some m => parse3 m

/-- Construction (`CSVDataWriter.__init__`) over a directory whose numbered files are
`existing` with contents `fs`: pick the counter, open in mode `"a"` (content
kept), then `_rotate` once. -/
def initWriter (base : String) (existing : List Nat) (fs : Nat → List String)
    (sz : Nat) : CSVW :=
  rotateStep sz { count := initCount base existing, fs := fs }

/-! ### `BabyMonitorProtocol.activate` (`src/kaamiki/protocols.py`, lines 216-284)

One iteration of the inner polling loop is a `tick`.  The mutable state it
reads and writes is `self._window`, `self._program`, `self._url`,
`self._domain` and the local `started`; the loop-local `url`/`domain`
variables coincide with `self._url`/`self._domain` at every tick boundary
(both start as `None`, and each good sample ends with `self._url = url`),
so a single pair in the state models both.  A tick is atomic at the time of
its sample: both `now()` calls made during a transition (for `stopped` and
for the reset of `started`) return the sample's instant. -/

structure Sample where
  window : Option String
  program : Option String
  time : Nat
  deriving DecidableEq

structure TState where
  window : Option String
  program : Option String
  url : Option String
  domain : Option String
  started : Nat
  deriving DecidableEq

/-- One Session record as passed to `CSVDataWriter.write` (before
serialization): the previous window/program/url/domain and the timing of
the interval being closed. -/
structure Record where
  window : Option String
  program : Option String
  url : Option String
  domain : Option String
  started : Nat
  stopped : Nat
  spent : Nat
  deriving DecidableEq

/-- Python falsiness of an optional string (`None` or `""`). -/
def pyFalsy (o : Option String) : Prop :=
  o = none ∨ o = some ""

instance (o : Option String) : Decidable (pyFalsy o) := by
  unfold pyFalsy
  infer_instance

/-- One iteration of the polling loop on a sample, given the platform URL
probe (`self._active_url` dispatch).  Returns the new state, the emitted
record (if any), and the program the URL probe was invoked with (if it was
invoked).  An unset-or-empty optional string is exactly one whose
`Option.getD ""` is `""`, so Python's truthiness test and the subsequent
uses of the sample's window/program are expressed through `Option.getD`.
Mirrors lines 229-276 of `protocols.py`:

```python
window, program = self._active_window...()
if window and program:
    if self._window != window:
        stopped = now()
        seconds_spent = (stopped - started).total_seconds()
        if seconds_spent != 0:
            time_spent = seconds_to_datetime(seconds_spent).split(":")
            url, domain = self._active_url...(program)
            self._csv.write(self._headers, self._window, self._program,
                            self._url, self._domain, started, stopped,
                            seconds_spent, *time_spent)
            started = now()
    self._window = window
    self._program = program
    self._url = url
    self._domain = domain
```
-/
def tick (probe : String → Option String × Option String) (s : TState)
    (x : Sample) : TState × Option Record × Option String :=
  if x.window.getD "" = "" ∨ x.program.getD "" = "" then (s, none, none)
  else if s.window = some (x.window.getD "") then
    ({ s with window := some (x.window.getD ""),
              program := some (x.program.getD "") }, none, none)
  else if x.time - s.started = 0 then
    ({ s with window := some (x.window.getD ""),
              program := some (x.program.getD "") }, none, none)
  else
    (⟨some (x.window.getD ""), some (x.program.getD ""),
      (probe (x.program.getD "")).1, (probe (x.program.getD "")).2, x.time⟩,
     some ⟨s.window, s.program, s.url, s.domain, s.started, x.time,
       x.time - s.started⟩,
     some (x.program.getD ""))

/-- Run the polling loop over a list of samples, collecting emitted records. -/
def runAux (probe : String → Option String × Option String) (s : TState) :
    List Sample → TState × List Record
  | [] => (s, [])
  | x :: xs =>
    let t := tick probe s x
    let rest := runAux probe t.1 xs
    (rest.1, t.2.1.toList ++ rest.2)

/-- The tracker state at daemon start (lines 219-220 and 227): open fields
all `None`, `started = now()`. -/
def initTState (start : Nat) : TState :=
  ⟨none, none, none, none, start⟩

/-- The records emitted by a run of the daemon started at instant `start`
over the given samples. -/
def emitted (probe : String → Option String × Option String) (start : Nat)
    (samples : List Sample) : List Record :=
  (runAux probe (initTState start) samples).2

/-- A sample whose window and program are both set and non-empty. -/
def goodSample (x : Sample) : Prop :=
  ¬ pyFalsy x.window ∧ ¬ pyFalsy x.program

/-! ### Serialization of one Session record (lines 249-262 of `protocols.py`)

`seconds_spent` is `timedelta.total_seconds()`, a float; both timestamps have
`microsecond=0`, so it is integral-valued and `str()` renders it with a
trailing `".0"`. -/

/-- The header list `self._headers` (lines 90-92). -/
def headersList : List String :=
  ["window", "program", "url", "domain", "started", "stopped", "spent",
   "days", "hours", "minutes", "seconds"]

/-- The header line as written by `CSVDataWriter.write`. -/
def headerLine : String :=
  joinWith "," headersList

/-- Python `str(seconds_spent)` for the integral-valued float `spent`. -/
def spentStr (spent : Nat) : String :=
  natRepr spent ++ ".0"

/-- The list `time_spent = seconds_to_datetime(seconds_spent).split(":")`. -/
def timeSpent (spent : Nat) : List String :=
  splitStr ':' (seconds_to_datetime spent)

/-- The eleven argument fields passed to `self._csv.write` for one record. -/
def sessionFields (r : Record) : List (Option String) :=
  [r.window, r.program, r.url, r.domain, some (natRepr r.started),
   some (natRepr r.stopped), some (spentStr r.spent)] ++
    (timeSpent r.spent).map some

/-- The CSV line the writer appends for one record. -/
def sessionLine (r : Record) : String :=
  recLine (sessionFields r)

/-! ### `BabyMonitorProtocol._get_active_url_on_nt` (lines 174-199)

The UI-automation interaction is abstracted as an outcome: the address-bar
read succeeds with some value, or raises a recoverable automation error
(`ElementNotFoundError` / `COMError`), or raises anything else.  The result
type is `Option (pair)`: `some` is a returned pair, `none` is Python's bare
`None`, which is what a `return`-less fall-through yields.  The
domain-extraction regex on the success path is abstracted as the outcome's
second payload (the claims below only concern the non-success paths). -/

inductive UiaOutcome where
  | ok (raw : String) (dom : String)
  | recoverable
  | unexpected
  deriving DecidableEq

def getActiveUrlOnNt (outcome : UiaOutcome) (program : String) :
    Option (Option String × Option String) :=
  if program ≠ "Google Chrome" then some (none, none)
  else
    match outcome with
    | UiaOutcome.ok raw dom => some (some ("https://" ++ raw), some dom)
    | UiaOutcome.recoverable => none
    | UiaOutcome.unexpected => some (none, none)

/-! ### Spec-side definitions

These follow the specification's wording (maximal runs of equal window
values, run durations, re-parsing a record line) and exist to be compared
with the behaviour of the embedded code. -/

/-- Number of positions where the window value changes, continuing from a
current window `w`. -/
def countSwitches : String → List String → Nat
  | _, [] => 0
  | w, x :: xs => (if x = w then 0 else 1) + countSwitches x xs

/-- The number of distinct maximal runs of equal consecutive values. -/
def countRuns : List String → Nat
  | [] => 0
  | w :: ws => 1 + countSwitches w ws

/-- The window strings of a list of samples. -/
def windowsOf (samples : List Sample) : List String :=
  samples.map (fun x => x.window.getD "")

/-- Durations of the maximal runs: a run closed by a differing sample lasts
until that sample's instant; the final run lasts until the last sample. -/
def specRunsAux (w : String) (start last : Nat) : List Sample → List Nat
  | [] => [last - start]
  | x :: xs =>
    if x.window.getD "" = w then specRunsAux w start x.time xs
    else (x.time - start) :: specRunsAux (x.window.getD "") x.time x.time xs

def specRunDurations : List Sample → List Nat
  | [] => []
  | x :: xs => specRunsAux (x.window.getD "") x.time x.time xs

/-- Re-parsing a serialized field: the spec maps the empty string back to
the optional-absent state. -/
def fieldToOpt (s : String) : Option String :=
  if s = "" then none else some s

instance (x : Sample) : Decidable (goodSample x) := by
  unfold goodSample
  infer_instance

/-- A URL probe that never finds a URL (the posix/darwin variants). -/
def probeNone : String → Option String × Option String :=
  fun _ => (none, none)

/-! ### Supporting lemmas -/

lemma colon_notin_pad2 (n : Nat) : ':' ∉ (pad2 n).data := by
  intro h
  exact absurd (pad2_digit n ':' h) (by decide)

lemma comma_notin_pad2 (n : Nat) : ',' ∉ (pad2 n).data := by
  intro h
  exact absurd (pad2_digit n ',' h) (by decide)

lemma comma_notin_natRepr (n : Nat) : ',' ∉ (natRepr n).data := by
  intro h
  exact absurd (natDigits_digit n ',' h) (by decide)

lemma comma_notin_spentStr (n : Nat) : ',' ∉ (spentStr n).data := by
  unfold spentStr
  rw [String.data_append]
  intro h
  rcases List.mem_append.1 h with h | h
  · exact comma_notin_natRepr n h
  · exact absurd h (by decide)

/-- Splitting `seconds_to_datetime(spent)` on the colon gives exactly the four zero-padded
components produced by the nested `divmod` calls. -/
lemma timeSpent_eq (n : Nat) :
    timeSpent n = [pad2 (n / 60 / 60 / 24), pad2 (n / 60 / 60 % 24),
      pad2 (n / 60 % 60), pad2 (n % 60)] := by
  unfold timeSpent seconds_to_datetime
  refine splitStr_joinWith ":" ':' rfl _ (by simp) ?_
  intro x hx
  simp only [List.mem_cons, List.not_mem_nil, or_false] at hx
  rcases hx with rfl | rfl | rfl | rfl <;> exact colon_notin_pad2 _

/-! ### C7 — the windows URL probe's error paths -/

/-- C7: for the windows-variant UrlProbe, a non-browser program yields the
pair `(none, none)` and an unexpected failure yields the pair
`(none, none)`; but on a recoverable UI-automation error the function body
falls through (`except ...: pass` with no `return`), producing Python's
bare `None` rather than a pair — contradicting both the claim and the
function's own `-> Tuple[Optional[str], ...]` annotation (the caller
`url, domain = ...` would raise on unpacking).  This theorem evaluates the
code at the failing input. -/
theorem C7_url_probe_code_bug :
    getActiveUrlOnNt UiaOutcome.recoverable "Google Chrome" = none ∧
    getActiveUrlOnNt UiaOutcome.unexpected "Google Chrome" = some (none, none) ∧
    getActiveUrlOnNt UiaOutcome.recoverable "Notepad" = some (none, none) ∧
    getActiveUrlOnNt UiaOutcome.unexpected "Notepad" = some (none, none) ∧
    getActiveUrlOnNt (UiaOutcome.ok "x.com" "x.com") "Notepad" =
      some (none, none) := by
  decide

/-! ### C8 — the serialized `spent` field and its `DD:HH:MM:SS` breakdown -/

/-- C8 (counterexample): the claim says the serialized `spent` field is the
session's total seconds as an integer, i.e. `natRepr spent`.  For a session
of 5 seconds the writer receives `str(5.0) = "5.0"`, not `"5"`:
`seconds_spent` is `timedelta.total_seconds()`, a float. -/
theorem C8_spent_counterexample :
    (sessionFields ⟨some "W1", some "P1", none, none, 0, 5, 5⟩)[6]? =
      some (some "5.0") ∧
    "5.0" ≠ natRepr 5 := by
  decide

/-- C8 (amended): the serialized `spent` field is the decimal rendering of
the integral-valued float of total seconds (with a trailing `".0"`), and
the trailing four fields are the zero-padded `DD:HH:MM:SS` decomposition of
`spent`: hours < 24, minutes < 60, seconds < 60, recombining to exactly
`spent`. -/
theorem C8_spent_breakdown (r : Record) :
    sessionFields r =
      [r.window, r.program, r.url, r.domain, some (natRepr r.started),
       some (natRepr r.stopped), some (natRepr r.spent ++ ".0"),
       some (pad2 (r.spent / 60 / 60 / 24)), some (pad2 (r.spent / 60 / 60 % 24)),
       some (pad2 (r.spent / 60 % 60)), some (pad2 (r.spent % 60))] ∧
    r.spent / 60 / 60 % 24 < 24 ∧ r.spent / 60 % 60 < 60 ∧ r.spent % 60 < 60 ∧
    ((r.spent / 60 / 60 / 24 * 24 + r.spent / 60 / 60 % 24) * 60 +
      r.spent / 60 % 60) * 60 + r.spent % 60 = r.spent := by
  refine ⟨?_, ?_, ?_, ?_, ?_⟩
  · simp [sessionFields, timeSpent_eq, spentStr]
  · omega
  · omega
  · omega
  · omega

/-! ### C1 — behaviour of a duration-positive transition tick -/

/-- A two-browser URL probe environment used to separate the probe's
argument from the previously open program. -/
def probeAB : String → Option String × Option String :=
  fun q =>
    if q = "A" then (some "https://a.example", some "a.example")
    else (some "https://b.example", some "b.example")

/-- C1 (counterexample): with window `"W1"`/program `"A"` open and a sample
`("W2", "B")` arriving after a positive duration, the claim says the
tracker queries the UrlProbe with the previous program `"A"` and emits the
url obtained for it; the code queries the probe with the new program `"B"`
and emits the *stored* url (`None` here), not the probe result for `"A"`. -/
theorem C1_transition_counterexample :
    (tick probeAB ⟨some "W1", some "A", none, none, 0⟩
      ⟨some "W2", some "B", 5⟩).2.2 = some "B" ∧
    (some "B" : Option String) ≠ some "A" ∧
    ((tick probeAB ⟨some "W1", some "A", none, none, 0⟩
      ⟨some "W2", some "B", 5⟩).2.1).map Record.url = some none ∧
    (probeAB "A").1 = some "https://a.example" ∧
    (none : Option String) ≠ some "https://a.example" := by
  decide

/-- C1 (amended): on a tick whose sample has non-empty window and program,
whose window differs from the currently open one, and whose elapsed
duration is positive, the tracker queries the UrlProbe with the *new*
sample's program, emits a Session carrying the previous window, previous
program and the *stored* url/domain together with that session's start,
stop and duration, then resets `session_start` to now and adopts the new
window/program — with the fresh probe result — as open. -/
theorem C1_transition_tick (probe : String → Option String × Option String)
    (s : TState) (xt : Nat) (w p wPrev : String)
    (hw : w ≠ "") (hp : p ≠ "")
    (hopen : s.window = some wPrev) (hdiff : wPrev ≠ w)
    (hdur : s.started < xt) :
    tick probe s ⟨some w, some p, xt⟩ =
      (⟨some w, some p, (probe p).1, (probe p).2, xt⟩,
       some ⟨s.window, s.program, s.url, s.domain, s.started, xt,
         xt - s.started⟩,
       some p) := by
  unfold tick
  have h1 : ¬ ((some w : Option String).getD "" = "" ∨
      (some p : Option String).getD "" = "") := by
    simp [hw, hp]
  have h2 : ¬ s.window = some ((some w : Option String).getD "") := by
    rw [hopen]
    simp only [Option.getD_some, Option.some.injEq]
    exact hdiff
  have h3 : ¬ ((⟨some w, some p, xt⟩ : Sample).time - s.started = 0) := by
    show ¬ (xt - s.started = 0)
    omega
  rw [if_neg h1, if_neg h2, if_neg h3]
  rfl

/-- Witness for `C1_transition_tick` at a concrete transition. -/
theorem C1_transition_tick_witness :
    tick probeAB ⟨some "W1", some "A", none, none, 0⟩ ⟨some "W2", some "B", 5⟩ =
      (⟨some "W2", some "B", some "https://b.example", some "b.example", 5⟩,
       some ⟨some "W1", some "A", none, none, 0, 5, 5⟩,
       some "B") := by
  have h := C1_transition_tick probeAB ⟨some "W1", some "A", none, none, 0⟩ 5
    "W2" "B" "W1" (by decide) (by decide) rfl (by decide) (by decide)
  rw [h]
  decide

/-! ### C3 — unset samples are frame-preserving -/

/-- C3: a sample whose window or program is unset (or empty) leaves the
tracker's entire open-session state unchanged and emits nothing; in
particular the sequence `[(W1,P1,0), (none,none,3), (W1,P1,6)]` emits zero
sessions. -/
theorem C3_unset_sample_frame :
    (∀ (probe : String → Option String × Option String) (s : TState)
      (x : Sample), pyFalsy x.window ∨ pyFalsy x.program →
        tick probe s x = (s, none, none)) ∧
    emitted probeNone 0
      [⟨some "W1", some "P1", 0⟩, ⟨none, none, 3⟩,
       ⟨some "W1", some "P1", 6⟩] = [] := by
  constructor
  · intro probe s x h
    have hcond : x.window.getD "" = "" ∨ x.program.getD "" = "" := by
      rcases h with h | h <;> rcases h with h | h <;> rw [h]
      · left; rfl
      · left; rfl
      · right; rfl
      · right; rfl
    unfold tick
    rw [if_pos hcond]
  · decide

/-- Witness for the frame part of `C3_unset_sample_frame`. -/
theorem C3_unset_sample_frame_witness :
    tick probeNone ⟨some "W1", some "P1", none, none, 0⟩ ⟨none, none, 3⟩ =
      (⟨some "W1", some "P1", none, none, 0⟩, none, none) :=
  C3_unset_sample_frame.1 probeNone ⟨some "W1", some "P1", none, none, 0⟩
    ⟨none, none, 3⟩ (Or.inl (Or.inl rfl))

/-! ### C10 — the first emitted record has unset url/domain -/

lemma runAux_first_url (probe : String → Option String × Option String) :
    ∀ (samples : List Sample) (s : TState), s.url = none → s.domain = none →
      ∀ r rest, (runAux probe s samples).2 = r :: rest →
        r.url = none ∧ r.domain = none := by
  intro samples
  induction samples with
  | nil =>
    intro s _ _ r rest h
    exact absurd h (by simp [runAux])
  | cons x xs ih =>
    intro s hu hd r rest h
    show _
    unfold runAux tick at h
    split at h
    · exact ih s hu hd r rest h
    · split at h
      · exact ih _ (by simpa using hu) (by simpa using hd) r rest h
      · split at h
        · exact ih _ (by simpa using hu) (by simpa using hd) r rest h
        · simp only [Option.toList_some, List.cons_append, List.cons.injEq] at h
          rw [← h.1]
          exact ⟨hu, hd⟩

/-- C10: in every run of the daemon, the first Session record written (if
any) has empty url and domain fields: the stored url/domain start unset and
each record is written from the values stored before the current
transition's UrlProbe result is saved. -/
theorem C10_first_record_no_url (probe : String → Option String × Option String)
    (start : Nat) (samples : List Sample) (r : Record) (rest : List Record)
    (h : emitted probe start samples = r :: rest) :
    r.url = none ∧ r.domain = none :=
  runAux_first_url probe samples (initTState start) rfl rfl r rest h

/-- Witness for `C10_first_record_no_url`: a run over two samples from two
different windows emits a first record, whose url/domain are unset even
though the probe knows a URL for every program. -/
theorem C10_first_record_no_url_witness :
    (emitted probeAB 0 [⟨some "W1", some "A", 0⟩, ⟨some "W2", some "B", 5⟩]).head?.map
        (fun r => (r.url, r.domain)) = some (none, none) := by
  have h : emitted probeAB 0 [⟨some "W1", some "A", 0⟩, ⟨some "W2", some "B", 5⟩] =
      ⟨some "W1", some "A", none, none, 0, 5, 5⟩ ::
        ([] : List Record) := by decide
  have h2 := C10_first_record_no_url probeAB 0
    [⟨some "W1", some "A", 0⟩, ⟨some "W2", some "B", 5⟩]
    ⟨some "W1", some "A", none, none, 0, 5, 5⟩ [] h
  rw [h]
  simp [h2.1, h2.2]

/-! ### C2 — number of emitted Sessions vs maximal runs of equal windows -/

lemma getD_ne_empty {o : Option String} (h : ¬ pyFalsy o) : o.getD "" ≠ "" := by
  rcases o with _ | s
  · exact absurd (Or.inl rfl) h
  · intro hs
    simp only [Option.getD_some] at hs
    exact h (Or.inr (by rw [hs]))

/-- Counting the records emitted from a tracking state with an open window:
one per sample at which the window value switches, provided the sample
times are strictly increasing and later than the current session start. -/
lemma runAux_length (probe : String → Option String × Option String) :
    ∀ (samples : List Sample) (s : TState) (w : String),
      s.window = some w →
      (∀ x ∈ samples, goodSample x) →
      List.Pairwise (fun a b => a.time < b.time) samples →
      (∀ x ∈ samples, s.started < x.time) →
      (runAux probe s samples).2.length = countSwitches w (windowsOf samples) := by
  intro samples
  induction samples with
  | nil =>
    intro s w _ _ _ _
    simp [runAux, windowsOf, countSwitches]
  | cons x xs ih =>
    intro s w hw hgood hpair hstart
    have hgx := hgood x (List.mem_cons_self x xs)
    have hwx : ¬ x.window.getD "" = "" := getD_ne_empty hgx.1
    have hpx : ¬ x.program.getD "" = "" := getD_ne_empty hgx.2
    have hs0 : ¬ (x.time - s.started = 0) := by
      have := hstart x (List.mem_cons_self x xs)
      omega
    have hgoodt : ∀ y ∈ xs, goodSample y :=
      fun y hy => hgood y (List.mem_cons_of_mem x hy)
    have hpairt := List.pairwise_cons.1 hpair
    have h1 : ¬ (x.window.getD "" = "" ∨ x.program.getD "" = "") := by
      intro h
      rcases h with h | h
      · exact hwx h
      · exact hpx h
    simp only [runAux]
    unfold tick
    rw [if_neg h1]
    by_cases heq : s.window = some (x.window.getD "")
    · rw [if_pos heq]
      have hww : x.window.getD "" = w := by
        rw [hw] at heq
        exact (Option.some_inj.1 heq).symm
      simp only [Option.toList_none, List.nil_append]
      rw [ih ⟨some (x.window.getD ""), some (x.program.getD ""), s.url,
          s.domain, s.started⟩ (x.window.getD "") rfl hgoodt hpairt.2
        (fun y hy => hstart y (List.mem_cons_of_mem x hy))]
      show countSwitches (x.window.getD "") (windowsOf xs) =
        countSwitches w (x.window.getD "" :: windowsOf xs)
      rw [countSwitches, if_pos hww, Nat.zero_add]
    · rw [if_neg heq, if_neg hs0]
      have hww : ¬ x.window.getD "" = w := by
        intro hcontra
        exact heq (by rw [hw, hcontra])
      simp only [Option.toList_some, List.cons_append, List.nil_append,
        List.length_cons]
      rw [ih ⟨some (x.window.getD ""), some (x.program.getD ""),
          (probe (x.program.getD "")).1, (probe (x.program.getD "")).2, x.time⟩
        (x.window.getD "") rfl hgoodt hpairt.2
        (fun y hy => hpairt.1 y hy)]
      show countSwitches (x.window.getD "") (windowsOf xs) + 1 =
        countSwitches w (x.window.getD "" :: windowsOf xs)
      rw [countSwitches, if_neg hww]
      omega

/-- C2 (counterexample): the spec's own well-formed sample sequence
`[(W1,P1,0), (W2,P2,5), (W2,P2,9)]`.  It has two maximal runs (`W1`, `W2`),
both of nonzero duration, so the claim predicts two Sessions; the code
emits exactly one (the final `W2` run is still open when the stream ends
and is never emitted). -/
def c2Samples : List Sample :=
  [⟨some "W1", some "P1", 0⟩, ⟨some "W2", some "P2", 5⟩,
   ⟨some "W2", some "P2", 9⟩]

theorem C2_count_counterexample :
    (emitted probeNone 0 c2Samples).length = 1 ∧
    countRuns (windowsOf c2Samples) - (specRunDurations c2Samples).count 0 = 2 ∧
    (1 : Nat) ≠ 2 := by
  decide

/-- C2 (amended): for a nonempty well-formed sample sequence (non-empty
window and program throughout) with strictly increasing timestamps whose
first sample is at the daemon start instant, the number of emitted Sessions
is the number of maximal runs of equal consecutive window values minus one:
every run except the final, still-open one yields a Session, and no run of
zero duration can occur. -/
theorem C2_session_count (probe : String → Option String × Option String)
    (start : Nat) (x : Sample) (xs : List Sample)
    (hgood : ∀ y ∈ x :: xs, goodSample y)
    (hpair : List.Pairwise (fun a b => a.time < b.time) (x :: xs))
    (hfirst : x.time = start) :
    (emitted probe start (x :: xs)).length =
      countRuns (windowsOf (x :: xs)) - 1 := by
  have hgx := hgood x (List.mem_cons_self x xs)
  have hwx : ¬ x.window.getD "" = "" := getD_ne_empty hgx.1
  have hpx : ¬ x.program.getD "" = "" := getD_ne_empty hgx.2
  have hpairt := List.pairwise_cons.1 hpair
  unfold emitted
  simp only [runAux]
  unfold tick
  have h1 : ¬ (x.window.getD "" = "" ∨ x.program.getD "" = "") := by
    intro h
    rcases h with h | h
    · exact hwx h
    · exact hpx h
  have h2 : ¬ (initTState start).window = some (x.window.getD "") := by
    intro h
    exact Option.noConfusion h
  have h3 : x.time - (initTState start).started = 0 := by
    show x.time - start = 0
    omega
  rw [if_neg h1, if_neg h2, if_pos h3]
  simp only [Option.toList_none, List.nil_append]
  rw [runAux_length probe xs ⟨some (x.window.getD ""),
      some (x.program.getD ""), (initTState start).url, (initTState start).domain,
      (initTState start).started⟩ (x.window.getD "") rfl
    (fun y hy => hgood y (List.mem_cons_of_mem x hy)) hpairt.2
    (fun y hy => by
      have := hpairt.1 y hy
      show start < y.time
      omega)]
  show countSwitches (x.window.getD "") (windowsOf xs) =
    countRuns (x.window.getD "" :: windowsOf xs) - 1
  rw [countRuns]
  omega

/-- Witness for `C2_session_count` on the sequence of `C2_count_counterexample`. -/
theorem C2_session_count_witness :
    (emitted probeNone 0 c2Samples).length = countRuns (windowsOf c2Samples) - 1 :=
  C2_session_count probeNone 0 ⟨some "W1", some "P1", 0⟩
    [⟨some "W2", some "P2", 5⟩, ⟨some "W2", some "P2", 9⟩]
    (by decide) (by decide) rfl

/-! ### C4 — size-triggered rotation strictly between appends -/

lemma rotateStep_fs (sz : Nat) (w : CSVW) : (rotateStep sz w).fs = w.fs := by
  unfold rotateStep
  split <;> rfl

lemma rotateStep_count (sz : Nat) (w : CSVW) :
    (rotateStep sz w).count =
      if sz < fsize (w.fs w.count) then w.count + 1 else w.count := by
  unfold rotateStep
  split <;> simp_all

/-- The lines one `write` call appends to the open file: the header line
when the file was empty, then the record line. -/
def writeAppend (headers : List String) (args : List (Option String))
    (w : CSVW) : List String :=
  (if fsize (w.fs w.count) = 0 then [joinWith "," headers] else []) ++
    [recLine args]

lemma write_fs_count (sz : Nat) (headers : List String)
    (args : List (Option String)) (w : CSVW) :
    (write sz headers args w).fs w.count =
      w.fs w.count ++ writeAppend headers args w := by
  unfold write writeCore
  rw [rotateStep_fs]
  by_cases hc : fsize (w.fs w.count) = 0 <;>
    simp [hc, appendLine, writeAppend]

lemma write_fs_other (sz : Nat) (headers : List String)
    (args : List (Option String)) (w : CSVW) (m : Nat) (hm : m ≠ w.count) :
    (write sz headers args w).fs m = w.fs m := by
  unfold write writeCore
  rw [rotateStep_fs]
  by_cases hc : fsize (w.fs w.count) = 0 <;>
    simp [hc, appendLine, hm]

lemma write_count (sz : Nat) (headers : List String)
    (args : List (Option String)) (w : CSVW) :
    (write sz headers args w).count =
      if sz < fsize (w.fs w.count ++ writeAppend headers args w) then
        w.count + 1
      else w.count := by
  unfold write writeCore
  rw [rotateStep_count]
  by_cases hc : fsize (w.fs w.count) = 0 <;>
    simp [hc, appendLine, writeAppend]

/-- C4: after each append the writer checks the open file's size; it moves
to file `count + 1` iff the size (including the lines just appended)
strictly exceeds the threshold (default 100000 bytes); the append itself
went entirely into file `count`, every other file is untouched, and without
rotation the open file number is unchanged — so no record is ever split
across files. -/
theorem C4_size_rotation (sz : Nat) (headers : List String)
    (args : List (Option String)) (w : CSVW) :
    defaultSize = 100000 ∧
    (write sz headers args w).fs w.count =
      w.fs w.count ++ writeAppend headers args w ∧
    (∀ m, m ≠ w.count → (write sz headers args w).fs m = w.fs m) ∧
    ((write sz headers args w).count = w.count + 1 ↔
      sz < fsize (w.fs w.count ++ writeAppend headers args w)) ∧
    (¬ sz < fsize (w.fs w.count ++ writeAppend headers args w) →
      (write sz headers args w).count = w.count) := by
  refine ⟨rfl, write_fs_count sz headers args w,
    fun m hm => write_fs_other sz headers args w m hm, ?_, ?_⟩
  · rw [write_count]
    by_cases hr : sz < fsize (w.fs w.count ++ writeAppend headers args w) <;>
      simp [hr]
  · intro hr
    rw [write_count, if_neg hr]

/-- Witness for `C4_size_rotation`: one append over a tiny threshold rotates
from file 1 to file 2 and leaves file 3 untouched. -/
theorem C4_size_rotation_witness :
    (write 5 headersList [some "aaaaaa"] ⟨1, fun _ => []⟩).fs 3 = [] ∧
    (write 5 headersList [some "aaaaaa"] ⟨1, fun _ => []⟩).count = 1 + 1 :=
  ⟨(C4_size_rotation 5 headersList [some "aaaaaa"] ⟨1, fun _ => []⟩).2.2.1 3
      (by decide),
   ((C4_size_rotation 5 headersList [some "aaaaaa"] ⟨1, fun _ => []⟩).2.2.2.1).2
      (by decide)⟩

/-! ### C5 — the header row appears exactly once, as the first line -/

lemma sessionFields_eq (r : Record) :
    sessionFields r =
      [r.window, r.program, r.url, r.domain, some (natRepr r.started),
       some (natRepr r.stopped), some (natRepr r.spent ++ ".0"),
       some (pad2 (r.spent / 60 / 60 / 24)), some (pad2 (r.spent / 60 / 60 % 24)),
       some (pad2 (r.spent / 60 % 60)), some (pad2 (r.spent % 60))] := by
  simp [sessionFields, timeSpent_eq, spentStr]

lemma getLast?_mem_of_eq : ∀ (l : List Char) (a : Char),
    l.getLast? = some a → a ∈ l
  | [], _, h => by simp at h
  | [x], a, h => by
    rw [List.getLast?_singleton] at h
    rw [List.mem_singleton]
    exact (Option.some_inj.1 h).symm
  | x :: y :: ys, a, h => by
    rw [List.getLast?_cons_cons] at h
    exact List.mem_cons_of_mem x (getLast?_mem_of_eq (y :: ys) a h)

lemma joinWith_getLast (sep : String) :
    ∀ (xs : List String) (x : String), x.data ≠ [] →
      (joinWith sep (xs ++ [x])).data.getLast? = x.data.getLast?
  | [], x, _ => rfl
  | y :: ys, x, hx => by
    have ih := joinWith_getLast sep ys x hx
    have hne : (joinWith sep (ys ++ [x])).data ≠ [] := by
      intro hnil
      rw [hnil] at ih
      rw [List.getLast?_eq_none_iff.2 rfl] at ih
      exact absurd ih.symm (by simp [List.getLast?_eq_none_iff, hx])
    have hshape : joinWith sep ((y :: ys) ++ [x]) =
        y ++ sep ++ joinWith sep (ys ++ [x]) := by
      cases ys <;> rfl
    rw [hshape, String.data_append, ← ih]
    exact List.getLast?_append_of_ne_nil _ hne

/-- A serialized Session line never coincides with the header line: its
last character is a decimal digit (the seconds field), the header's is
`'s'`. -/
lemma sessionLine_ne_header (r : Record) : sessionLine r ≠ headerLine := by
  intro h
  have hlast : (sessionLine r).data.getLast? =
      (pad2 (r.spent % 60)).data.getLast? := by
    unfold sessionLine recLine
    rw [sessionFields_eq]
    simp only [List.map_cons, List.map_nil, serializeField]
    exact joinWith_getLast ","
      [serializeField r.window, serializeField r.program, serializeField r.url,
       serializeField r.domain, natRepr r.started, natRepr r.stopped,
       natRepr r.spent ++ ".0", pad2 (r.spent / 60 / 60 / 24),
       pad2 (r.spent / 60 / 60 % 24), pad2 (r.spent / 60 % 60)]
      (pad2 (r.spent % 60)) (pad2_ne_nil _)
  have h2 : (pad2 (r.spent % 60)).data.getLast? = some 's' := by
    rw [← hlast, h]
    decide
  have hmem := getLast?_mem_of_eq _ _ h2
  exact absurd (pad2_digit (r.spent % 60) 's' hmem) (by decide)

/-- A sequence of appended Session records through `CSVDataWriter.write`. -/
def runSessions (sz : Nat) (w : CSVW) (rs : List Record) : CSVW :=
  rs.foldl (fun w r => write sz headersList (sessionFields r) w) w

/-- A writer constructed over a fresh (empty) directory. -/
def freshWriter (sz : Nat) : CSVW :=
  initWriter "name" [] (fun _ => []) sz

/-- The header-once invariant for one file's lines. -/
def headerOnceFile (ls : List String) : Prop :=
  ls = [] ∨ ∃ t, ls = headerLine :: t ∧ headerLine ∉ t

lemma fsize_eq_zero_iff (ls : List String) : fsize ls = 0 ↔ ls = [] := by
  cases ls with
  | nil => simp [fsize]
  | cons a as =>
    simp only [fsize, List.map_cons, List.sum_cons]
    constructor
    · intro h
      exact absurd h (by omega)
    · intro h
      simp at h

lemma write_headerOnce (sz : Nat) (r : Record) (w : CSVW)
    (hinv : ∀ i, headerOnceFile (w.fs i)) :
    ∀ i, headerOnceFile ((write sz headersList (sessionFields r) w).fs i) := by
  intro i
  by_cases hi : i = w.count
  · subst hi
    rw [write_fs_count]
    rcases hinv w.count with hempty | ⟨t, hcons, hmem⟩
    · rw [hempty]
      right
      refine ⟨[sessionLine r], ?_, ?_⟩
      · rw [writeAppend, if_pos (by rw [hempty]; rfl)]
        rfl
      · simp only [List.mem_singleton]
        exact fun hcontra => sessionLine_ne_header r hcontra.symm
    · right
      refine ⟨t ++ [sessionLine r], ?_, ?_⟩
      · rw [hcons, writeAppend,
          if_neg (by rw [hcons]; simp [fsize_eq_zero_iff])]
        rfl
      · intro hcontra
        rcases List.mem_append.1 hcontra with hcontra | hcontra
        · exact hmem hcontra
        · simp only [List.mem_singleton] at hcontra
          exact sessionLine_ne_header r hcontra.symm
  · rw [write_fs_other sz headersList (sessionFields r) w i hi]
    exact hinv i

lemma runSessions_headerOnce (sz : Nat) :
    ∀ (rs : List Record) (w : CSVW), (∀ i, headerOnceFile (w.fs i)) →
      ∀ i, headerOnceFile ((runSessions sz w rs).fs i)
  | [], _, hinv, i => hinv i
  | r :: rs, w, hinv, i =>
    runSessions_headerOnce sz rs (write sz headersList (sessionFields r) w)
      (write_headerOnce sz r w hinv) i

/-- C5: over any sequence of appended Session records starting from a fresh
directory, every nonempty record file contains the header row exactly once,
as its first line; and during any single append the header row is written
iff the open file was empty at write time. -/
theorem C5_header_once (sz : Nat) (rs : List Record) (i : Nat)
    (hne : (runSessions sz (freshWriter sz) rs).fs i ≠ []) :
    ((runSessions sz (freshWriter sz) rs).fs i).head? = some headerLine ∧
    ((runSessions sz (freshWriter sz) rs).fs i).count headerLine = 1 ∧
    (∀ (r : Record) (w : CSVW),
      (writeCore sz headersList (sessionFields r) w).2 = true ↔
        w.fs w.count = []) := by
  have hinv0 : ∀ j, headerOnceFile ((freshWriter sz).fs j) := by
    intro j
    left
    show (rotateStep sz ⟨1, fun _ => []⟩).fs j = []
    rw [rotateStep_fs]
  have hinv := runSessions_headerOnce sz rs (freshWriter sz) hinv0 i
  rcases hinv with hempty | ⟨t, hcons, hmem⟩
  · exact absurd hempty hne
  · refine ⟨by rw [hcons]; rfl, ?_, ?_⟩
    · rw [hcons, List.count_cons_self, List.count_eq_zero.2 hmem]
    · intro r w
      show (decide (fsize (w.fs w.count) = 0)) = true ↔ _
      rw [decide_eq_true_iff]
      exact fsize_eq_zero_iff (w.fs w.count)

/-- Witness for `C5_header_once` after one append on a fresh writer. -/
theorem C5_header_once_witness :
    ((runSessions 1000 (freshWriter 1000)
        [⟨some "W1", some "P1", none, none, 0, 5, 5⟩]).fs 1).head? =
      some headerLine ∧
    ((runSessions 1000 (freshWriter 1000)
        [⟨some "W1", some "P1", none, none, 0, 5, 5⟩]).fs 1).count
      headerLine = 1 :=
  ⟨(C5_header_once 1000 [⟨some "W1", some "P1", none, none, 0, 5, 5⟩] 1
      (by decide)).1,
   (C5_header_once 1000 [⟨some "W1", some "P1", none, none, 0, 5, 5⟩] 1
      (by decide)).2.1⟩

/-! ### C6 — resuming against an existing directory -/

lemma runWrites_fs_below (sz : Nat) (headers : List String) :
    ∀ (records : List (List (Option String))) (w : CSVW) (m : Nat),
      m < w.count →
      (runWrites sz headers w records).fs m = w.fs m ∧
      w.count ≤ (runWrites sz headers w records).count
  | [], _, _, _ => ⟨rfl, le_refl _⟩
  | args :: records, w, m, hm => by
    have hw : (write sz headers args w).count = w.count ∨
        (write sz headers args w).count = w.count + 1 := by
      rw [write_count]
      split
      · right; rfl
      · left; rfl
    have hmlt : m < (write sz headers args w).count := by
      rcases hw with h | h <;> omega
    have ih := runWrites_fs_below sz headers records
      (write sz headers args w) m hmlt
    refine ⟨?_, ?_⟩
    · rw [show runWrites sz headers w (args :: records) =
        runWrites sz headers (write sz headers args w) records from rfl,
        ih.1, write_fs_other sz headers args w m (by omega)]
    · calc w.count ≤ (write sz headers args w).count := by
            rcases hw with h | h <;> omega
        _ ≤ _ := ih.2

/-- C6 (counterexample): over a directory holding `name-999.csv` and
`name-1000.csv` the construction scan resumes with counter 999, not the
highest counter 1000: `sorted(..., reverse=True)[0]` is the
*lexicographically* greatest filename, and `"name-999.csv"` sorts after
`"name-1000.csv"`. -/
theorem C6_resume_counterexample :
    initCount "name" [999, 1000] = 999 ∧ (999 : Nat) ≠ 1000 := by
  decide

/-- C6 (amended): the writer resumes with the counter parsed from the
lexicographically greatest matching filename — which is the highest counter
for the zero-padded three-digit names such as `name-001.csv`/`name-002.csv`
— and starts at 1 when no files exist.  Constructed over `name-001.csv` and
`name-002.csv` it opens file 002 in append mode (rotating at most once,
past it, at construction), and no sequence of subsequent appends ever
changes the content of `name-001.csv`. -/
theorem C6_resume_behaviour (fs : Nat → List String) (sz : Nat)
    (headers : List String) (records : List (List (Option String))) :
    initCount "name" [] = 1 ∧
    initCount "name" [1, 2] = 2 ∧
    ((initWriter "name" [1, 2] fs sz).count = 2 ∨
      (initWriter "name" [1, 2] fs sz).count = 3) ∧
    (initWriter "name" [1, 2] fs sz).fs = fs ∧
    (runWrites sz headers (initWriter "name" [1, 2] fs sz) records).fs 1 =
      fs 1 := by
  have hcor : (initWriter "name" [1, 2] fs sz).count = 2 ∨
      (initWriter "name" [1, 2] fs sz).count = 3 := by
    unfold initWriter
    rw [rotateStep_count]
    rw [show initCount "name" [1, 2] = 2 from by decide]
    split
    · right; rfl
    · left; rfl
  have hfs : (initWriter "name" [1, 2] fs sz).fs = fs := by
    unfold initWriter
    rw [rotateStep_fs]
  refine ⟨by decide, by decide, hcor, hfs, ?_⟩
  have h1 : 1 < (initWriter "name" [1, 2] fs sz).count := by
    rcases hcor with h | h <;> omega
  rw [(runWrites_fs_below sz headers records
    (initWriter "name" [1, 2] fs sz) 1 h1).1, hfs]

/-! ### C9 — serialize/re-parse round trip of a Session line -/

lemma serializeField_no_comma {o : Option String}
    (h : ∀ s, o = some s → s ≠ "" ∧ ',' ∉ s.data) :
    ',' ∉ (serializeField o).data := by
  rcases o with _ | s
  · exact (by decide)
  · exact (h s rfl).2

lemma fieldToOpt_serializeField {o : Option String}
    (h : ∀ s, o = some s → s ≠ "" ∧ ',' ∉ s.data) :
    fieldToOpt (serializeField o) = o := by
  rcases o with _ | s
  · rfl
  · show fieldToOpt s = some s
    unfold fieldToOpt
    rw [if_neg (h s rfl).1]

lemma fieldToOpt_of_ne_empty {s : String} (h : s ≠ "") :
    fieldToOpt s = some s := by
  unfold fieldToOpt
  rw [if_neg h]

lemma natRepr_ne_empty (n : Nat) : natRepr n ≠ "" := by
  intro h
  exact natDigits_ne_nil n (congrArg String.data h)

lemma spentStr_ne_empty (n : Nat) : spentStr n ≠ "" := by
  intro h
  have := congrArg String.data h
  rw [show (spentStr n).data = (natRepr n).data ++ [Char.ofNat 46, Char.ofNat 48]
    from by unfold spentStr; rw [String.data_append]] at this
  simp at this

lemma pad2_ne_empty (n : Nat) : pad2 n ≠ "" := by
  intro h
  exact pad2_ne_nil n (congrArg String.data h)

/-- C9 (counterexample): a Session whose window title contains the
delimiter (`"a,b"`) serializes to a line that splits into twelve fields
instead of the original eleven, and the first re-parsed field is `"a"`,
not the original window title. -/
theorem C9_roundtrip_counterexample :
    (splitStr ',' (sessionLine ⟨some "a,b", some "P1", none, none, 0, 5, 5⟩)).length = 12 ∧
    ((sessionFields ⟨some "a,b", some "P1", none, none, 0, 5, 5⟩).map
      serializeField).length = 11 ∧
    (splitStr ',' (sessionLine ⟨some "a,b", some "P1", none, none, 0, 5, 5⟩))[0]? =
      some "a" ∧
    (some "a" : Option String) ≠ some "a,b" ∧
    (12 : Nat) ≠ 11 := by
  decide

/-- C9 (amended): for every Session whose present optional string fields
are non-empty and contain no occurrence of the delimiter, splitting the
serialized line on the delimiter reproduces exactly the eleven serialized
field values, and mapping the empty string back to the optional-absent
state recovers every original field value. -/
theorem C9_roundtrip (r : Record)
    (hw : ∀ s, r.window = some s → s ≠ "" ∧ ',' ∉ s.data)
    (hp : ∀ s, r.program = some s → s ≠ "" ∧ ',' ∉ s.data)
    (hu : ∀ s, r.url = some s → s ≠ "" ∧ ',' ∉ s.data)
    (hd : ∀ s, r.domain = some s → s ≠ "" ∧ ',' ∉ s.data) :
    splitStr ',' (sessionLine r) = (sessionFields r).map serializeField ∧
    ((sessionFields r).map serializeField).map fieldToOpt = sessionFields r := by
  constructor
  · unfold sessionLine recLine
    refine splitStr_joinWith "," ',' rfl _ ?_ ?_
    · rw [sessionFields_eq]
      simp
    · intro x hx
      rw [sessionFields_eq] at hx
      simp only [List.map_cons, List.map_nil, List.mem_cons,
        List.not_mem_nil, or_false] at hx
      rcases hx with rfl | rfl | rfl | rfl | rfl | rfl | rfl | rfl | rfl |
        rfl | rfl
      · exact serializeField_no_comma hw
      · exact serializeField_no_comma hp
      · exact serializeField_no_comma hu
      · exact serializeField_no_comma hd
      · exact comma_notin_natRepr r.started
      · exact comma_notin_natRepr r.stopped
      · exact comma_notin_spentStr r.spent
      · exact comma_notin_pad2 _
      · exact comma_notin_pad2 _
      · exact comma_notin_pad2 _
      · exact comma_notin_pad2 _
  · rw [sessionFields_eq]
    simp only [List.map_cons, List.map_nil]
    rw [fieldToOpt_serializeField hw, fieldToOpt_serializeField hp,
      fieldToOpt_serializeField hu, fieldToOpt_serializeField hd]
    simp only [serializeField]
    rw [fieldToOpt_of_ne_empty
        (show natRepr r.started ≠ "" from natRepr_ne_empty _),
      fieldToOpt_of_ne_empty
        (show natRepr r.stopped ≠ "" from natRepr_ne_empty _),
      fieldToOpt_of_ne_empty
        (show natRepr r.spent ++ ".0" ≠ "" from spentStr_ne_empty _),
      fieldToOpt_of_ne_empty
        (show pad2 (r.spent / 60 / 60 / 24) ≠ "" from pad2_ne_empty _),
      fieldToOpt_of_ne_empty
        (show pad2 (r.spent / 60 / 60 % 24) ≠ "" from pad2_ne_empty _),
      fieldToOpt_of_ne_empty
        (show pad2 (r.spent / 60 % 60) ≠ "" from pad2_ne_empty _),
      fieldToOpt_of_ne_empty
        (show pad2 (r.spent % 60) ≠ "" from pad2_ne_empty _)]

/-- Witness for `C9_roundtrip` on a concrete clean Session. -/
theorem C9_roundtrip_witness :
    splitStr ',' (sessionLine
        ⟨some "W1", some "P1", some "https://x", some "x", 0, 5, 5⟩) =
      (sessionFields
        ⟨some "W1", some "P1", some "https://x", some "x", 0, 5, 5⟩).map
        serializeField ∧
    ((sessionFields
        ⟨some "W1", some "P1", some "https://x", some "x", 0, 5, 5⟩).map
        serializeField).map fieldToOpt =
      sessionFields ⟨some "W1", some "P1", some "https://x", some "x", 0, 5, 5⟩ :=
  C9_roundtrip ⟨some "W1", some "P1", some "https://x", some "x", 0, 5, 5⟩
    (fun s hs => by
      rw [show s = "W1" from (Option.some_inj.1 hs).symm]
      exact ⟨by decide, by decide⟩)
    (fun s hs => by
      rw [show s = "P1" from (Option.some_inj.1 hs).symm]
      exact ⟨by decide, by decide⟩)
    (fun s hs => by
      rw [show s = "https://x" from (Option.some_inj.1 hs).symm]
      exact ⟨by decide, by decide⟩)
    (fun s hs => by
      rw [show s = "x" from (Option.some_inj.1 hs).symm]
      exact ⟨by decide, by decide⟩)
